import Mathlib

/-
Shallow embedding of the retrieval-and-orchestration core of the `first500`
RAG agent: the text chunker (`DocumentRetriever._split_text`), the vector
store (`VectorStore`), the session store (`SessionMemory`) and the
orchestrator loop (`AIAgent.process_query`).  Machine-level details of the
Python runtime that the code relies on (negative-index slicing, `str.rfind`,
`str.strip`, truthiness of `0`) are embedded explicitly.
-/

/-! ## Python string primitives used by `_split_text` -/

/-- Python slice-bound semantics: a negative index counts from the end,
and both directions clamp into `[0, n]`. -/
def pyBound (n : Nat) (i : Int) : Nat :=
  if i < 0 then ((n : Int) + i).toNat else min i.toNat n

/-- Python slicing `t[a:b]` for a string, as a list of characters. -/
def pySlice (t : List Char) (a b : Int) : List Char :=
  let a2 := pyBound t.length a
  let b2 := pyBound t.length b
  (t.drop a2).take (b2 - a2)

/-- Does `pat` occur in `t` starting at absolute position `i`? -/
def matchAt (t pat : List Char) (i : Nat) : Bool :=
  (t.drop i).take pat.length == pat

/-- Python `t.rfind(pat, a, b)`: the highest position `i` with
`a' ≤ i`, `i + len(pat) ≤ b'` and a match at `i`, else `-1`,
where `a'`, `b'` are the clamped bounds. -/
def pyRfind (t pat : List Char) (a b : Int) : Int :=
  let a2 := pyBound t.length a
  let b2 := pyBound t.length b
  match ((List.range (b2 + 1)).filter
      (fun i => decide (a2 ≤ i) && decide (i + pat.length ≤ b2) && matchAt t pat i)).getLast? with
  | some i => (i : Int)
  | none => -1

/-- The whitespace characters relevant to Python `str.strip` here. -/
def isPyWS (c : Char) : Bool := c == ' ' || c == '\n' || c == '\t' || c == '\r'

/-- Python `s.strip()`. -/
def pyStrip (s : List Char) : List Char :=
  ((s.dropWhile isPyWS).reverse.dropWhile isPyWS).reverse

/-! ## `DocumentRetriever._split_text` -/

/-- One boundary computation of `_split_text`: propose `end = start + chunk_size`
and, if that falls inside the text, snap back to the last paragraph break,
else the last sentence break, else the last space, each only when strictly
after `start`. -/
def proposeEnd (chunkSize : Nat) (t : List Char) (start : Int) : Int :=
  let e : Int := start + (chunkSize : Int)
  if e < (t.length : Int) then
    let lastNewline := pyRfind t ['\n', '\n'] start e
    if lastNewline ≠ -1 ∧ lastNewline > start then lastNewline + 2
    else
      let lastPeriod := pyRfind t ['.', ' '] start e
      if lastPeriod ≠ -1 ∧ lastPeriod > start then lastPeriod + 2
      else
        let lastSpace := pyRfind t [' '] start e
        if lastSpace ≠ -1 ∧ lastSpace > start then lastSpace + 1
        else e
  else e

/-- The `while start < text_length` loop of `_split_text`, with explicit fuel:
`none` means the loop has not finished within `fuel` iterations.  Each
iteration slices `text[start:end]`, strips it, keeps it when non-empty, and
advances `start` to `end - overlap` (or to the end of the text when the
proposed `end` reached it). -/
def splitGo (chunkSize overlap : Nat) (t : List Char) :
    Nat → Int → List String → Option (List String)
  | 0, _, _ => none
  | fuel + 1, start, chunks =>
    if start < (t.length : Int) then
      let e := proposeEnd chunkSize t start
      let piece := pyStrip (pySlice t start e)
      let chunks2 := if piece.isEmpty then chunks else chunks ++ [String.mk piece]
      let start2 := if e < (t.length : Int) then e - (overlap : Int) else (t.length : Int)
      splitGo chunkSize overlap t fuel start2 chunks2
    else some chunks

/-- Embedding of `DocumentRetriever._split_text(text)` with configuration
`(chunk_size, chunk_overlap)`, fuel-bounded. -/
def splitText (chunkSize overlap : Nat) (text : String) (fuel : Nat) : Option (List String) :=
  splitGo chunkSize overlap text.toList fuel 0 []

/-- On the text `"ab cdefgh"` with `chunk_size = 5`, `overlap = 3`, one loop
iteration at `start = 0` snaps `end` to the space (`end = 3`), emits `"ab"`,
and sets `start` back to `3 - 3 = 0`. -/
theorem splitGo_fixpoint (n : Nat) (acc : List String) :
    splitGo 5 3 "ab cdefgh".toList (n + 1) 0 acc =
      splitGo 5 3 "ab cdefgh".toList n 0 (acc ++ ["ab"]) := by
  rfl

theorem splitGo_never_finishes (n : Nat) :
    ∀ acc, splitGo 5 3 "ab cdefgh".toList n 0 acc = none := by
  induction n with
  | zero => intro acc; rfl
  | succ k ih => intro acc; rw [splitGo_fixpoint]; exact ih (acc ++ ["ab"])

/-- C2: the claim says `_split_text` terminates for every text and valid
configuration because `start` strictly increases each iteration.  The code
violates this: with the valid configuration `chunk_size = 5 > overlap = 3`,
on input `"ab cdefgh"` the space snap gives `end = 3` and the next
`start = end - overlap = 0`, so the loop never terminates (the fuel-bounded
embedding returns `none` for every fuel). -/
theorem C2_split_text_nonterminating :
    3 < 5 ∧ ∀ fuel : Nat, splitText 5 3 "ab cdefgh" fuel = none := by
  refine ⟨by norm_num, fun fuel => ?_⟩
  exact splitGo_never_finishes fuel []

/-! ## `VectorStore` (src/app/rag/vector_store.py) -/

structure Document where
  content : String
  source : String
  chunkId : Nat
deriving DecidableEq

/-- Model of a `faiss.IndexFlatL2`: a fixed dimension `d` and the stored
rows in insertion order. -/
structure FaissIndex where
  d : Nat
  vectors : List (List Int)
deriving DecidableEq

structure VectorStore where
  index : Option FaissIndex
  documents : List Document
  dimension : Option Nat
  isInit : Bool
deriving DecidableEq

/-- The state built by `VectorStore.__init__`. -/
def VectorStore.empty : VectorStore :=
  { index := none, documents := [], dimension := none, isInit := false }

/-- Numpy `np.array(embeddings, dtype=np.float32).shape[1]`: defined exactly when the
batch is non-empty and rectangular. -/
def shape1 (embs : List (List Int)) : Option Nat :=
  match embs with
  | [] => none
  | v :: vs => if vs.all (fun w => w.length == v.length) then some v.length else none

/-- Embedding of `VectorStore.add_documents`.  The embedding batch `embs` stands for
`generate_embeddings_batch(texts)`.  Returns the post-state and, when the call
raises, the error: a malformed batch shape fails before any mutation, and
`faiss` rejects an `add` whose row length differs from the index's fixed
dimension `d` — in that case `documents` has not yet been extended, so the
state is returned unchanged. -/
def addDocuments (s : VectorStore) (docs : List Document) (embs : List (List Int)) :
    VectorStore × Option String :=
  if docs.isEmpty then (s, none)
  else
    match shape1 embs with
    | none => (s, some "BadEmbeddingShape")
    | some L =>
      match s.index with
      | none =>
        ({ s with dimension := some L,
                  index := some { d := L, vectors := embs },
                  documents := s.documents ++ docs,
                  isInit := true }, none)
      | some idx =>
        if L = idx.d then
          ({ s with index := some { idx with vectors := idx.vectors ++ embs },
                    documents := s.documents ++ docs,
                    isInit := true }, none)
        else (s, some "DimensionMismatch")

/-- Squared Euclidean (L2) distance. -/
def sqDist (u v : List Int) : Int :=
  (List.zipWith (fun a b => (a - b) * (a - b)) u v).sum

/-- Model of `faiss.IndexFlatL2.search` for a single query vector: every
stored row is scored by squared L2 distance, rows are sorted by ascending
distance (ties in insertion order), and the first `k` are returned as
`(distance, row id)` pairs. -/
def faissSearch (idx : FaissIndex) (qv : List Int) (k : Nat) : List (Int × Nat) :=
  (List.insertionSort (fun a b : Int × Nat => a.1 ≤ b.1)
    (idx.vectors.enum.map (fun p => (sqDist qv p.2, p.1)))).take k

/-- Embedding of `VectorStore.search`.  `qv` stands for `generate_embedding(query)`,
`k` is the Python argument (`none` = not passed) and `topK` is
`settings.top_k_results`.  Python's `k = k or settings.top_k_results`
replaces both `None` and `0` by the default. -/
def VectorStore.search (s : VectorStore) (qv : List Int) (k : Option Nat) (topK : Nat) :
    List (Document × Int) :=
  if s.isInit = false ∨ s.index = none then []
  else
    match s.index with
    | none => []
    | some idx =>
      let kv := match k with
        | none => topK
        | some n => if n = 0 then topK else n
      let km := min kv s.documents.length
      (faissSearch idx qv km).filterMap
        (fun p => (s.documents[p.2]?).map (fun d => (d, p.1)))

/-- Embedding of `VectorStore.clear`: the source resets `index`, `documents` and
`is_initialized`, and does not touch `dimension`. -/
def VectorStore.clear (s : VectorStore) : VectorStore :=
  { s with index := none, documents := [], isInit := false }

/-- C10: adding an empty batch of documents is a complete no-op: the store is
returned unchanged in every field (in particular an uninitialized store stays
uninitialized) and no error is raised. -/
theorem C10_addDocuments_empty_noop (s : VectorStore) (embs : List (List Int)) :
    addDocuments s [] embs = (s, none) := rfl

/-- C3: (first conjunct) the first non-empty batch fixes the index dimension to
the observed vector length; (second conjunct) once a dimension is fixed, an
`add` whose (rectangular, non-empty) batch has a different vector length fails
with `DimensionMismatch` and returns the state completely unchanged — so the
document count and all stored entries are untouched. -/
theorem C3_add_dimension_mismatch :
    (∀ (s : VectorStore) (docs : List Document) (embs : List (List Int)) (L : Nat),
      s.index = none → shape1 embs = some L → docs ≠ [] →
      (addDocuments s docs embs).2 = none ∧
      (addDocuments s docs embs).1.dimension = some L ∧
      (addDocuments s docs embs).1.index = some { d := L, vectors := embs }) ∧
    (∀ (s : VectorStore) (idx : FaissIndex) (docs : List Document) (embs : List (List Int)) (L : Nat),
      s.index = some idx → shape1 embs = some L → docs ≠ [] → L ≠ idx.d →
      addDocuments s docs embs = (s, some "DimensionMismatch")) := by
  constructor
  · intro s docs embs L hidx hsh hdocs
    have hde : docs.isEmpty = false := by
      cases docs with
      | nil => exact absurd rfl hdocs
      | cons a t => rfl
    simp [addDocuments, hde, hsh, hidx]
  · intro s idx docs embs L hidx hsh hdocs hL
    have hde : docs.isEmpty = false := by
      cases docs with
      | nil => exact absurd rfl hdocs
      | cons a t => rfl
    simp [addDocuments, hde, hsh, hidx, hL]

/-- A concrete one-entry store: one document embedded to the 2-dimensional
vector `[1, 2]`. -/
def vsOne : VectorStore :=
  (addDocuments VectorStore.empty [{ content := "hello", source := "a.txt", chunkId := 0 }]
    [[1, 2]]).1

/-- Witness for C3: on `vsOne` (dimension fixed to 2 by its first batch), adding
a 3-dimensional vector is rejected with `DimensionMismatch` and the store is
unchanged. -/
theorem C3_witness :
    (addDocuments VectorStore.empty [{ content := "hello", source := "a.txt", chunkId := 0 }]
        [[1, 2]]).1.dimension = some 2 ∧
    addDocuments vsOne [{ content := "x", source := "b.txt", chunkId := 0 }] [[1, 2, 3]] =
      (vsOne, some "DimensionMismatch") := by
  constructor
  · exact (C3_add_dimension_mismatch.1 VectorStore.empty
      [{ content := "hello", source := "a.txt", chunkId := 0 }] [[1, 2]] 2
      rfl (by decide) (by decide)).2.1
  · exact C3_add_dimension_mismatch.2 vsOne { d := 2, vectors := [[1, 2]] }
      [{ content := "x", source := "b.txt", chunkId := 0 }] [[1, 2, 3]] 3
      (by decide) (by decide) (by decide) (by decide)

instance : IsTotal (Int × Nat) (fun a b => a.1 ≤ b.1) :=
  ⟨fun a b => Int.le_total a.1 b.1⟩

instance : IsTrans (Int × Nat) (fun a b => a.1 ≤ b.1) :=
  ⟨fun _ _ _ h1 h2 => le_trans h1 h2⟩

theorem resLength (docs : List Document) (l : List (Int × Nat))
    (h : ∀ p ∈ l, p.2 < docs.length) :
    (l.filterMap (fun p => (docs[p.2]?).map (fun d => (d, p.1)))).length = l.length := by
  induction l with
  | nil => rfl
  | cons a t ih =>
    have ha : a.2 < docs.length := h a (List.mem_cons_self a t)
    have hsome : docs[a.2]? = some docs[a.2] := List.getElem?_eq_getElem ha
    simp [List.filterMap_cons, hsome, ih (fun p hp => h p (List.mem_cons_of_mem a hp))]

/-- C4 counterexample: `vsOne` stores exactly one entry, yet `search(q, k = 0)`
returns 1 result, not `min(0, 1) = 0`: Python's `k = k or settings.top_k_results`
treats `k = 0` as absent and substitutes the default (here 3), so the result
is not bounded by the requested `k = 0`. -/
theorem C4_counterexample :
    vsOne.documents.length = 1 ∧
    (VectorStore.search vsOne [0, 0] (some 0) 3).length = 1 ∧
    ¬ ((VectorStore.search vsOne [0, 0] (some 0) 3).length ≤ 0) := by
  decide

/-- C4 amended: an uninitialized store searches to `[]`; on an initialized
store whose document and vector counts agree, `search` returns exactly
`min(kv, stored_count)` pairs where `kv` is the requested `k` when `k ≥ 1`
and the default `top_k_results` when `k` is absent or `0`; the results are
sorted by non-decreasing squared-L2 distance, each result pairs a stored
document with the distance of its row vector to the query, and an empty
document list yields `[]`. -/
theorem C4_search_spec :
    (∀ (s : VectorStore) (qv : List Int) (k : Option Nat) (topK : Nat),
      s.isInit = false → VectorStore.search s qv k topK = []) ∧
    (∀ (s : VectorStore) (idx : FaissIndex) (qv : List Int) (k : Option Nat) (topK : Nat),
      s.index = some idx → s.isInit = true →
      idx.vectors.length = s.documents.length →
      (VectorStore.search s qv k topK).length =
        min (match k with | none => topK | some n => if n = 0 then topK else n)
          s.documents.length ∧
      List.Sorted (fun a b : Document × Int => a.2 ≤ b.2) (VectorStore.search s qv k topK) ∧
      (∀ p ∈ VectorStore.search s qv k topK, ∃ (i : Nat) (v : List Int),
        idx.vectors[i]? = some v ∧ s.documents[i]? = some p.1 ∧ p.2 = sqDist qv v) ∧
      (s.documents = [] → VectorStore.search s qv k topK = [])) := by
  constructor
  · intro s qv k topK h
    simp [VectorStore.search, h]
  · intro s idx qv k topK hidx hinit hlen
    obtain ⟨sidx, sdocs, sdim, sinit⟩ := s
    simp only at hidx hinit hlen ⊢
    subst hidx
    subst hinit
    have hs : ∀ kk : Nat, VectorStore.search ⟨some idx, sdocs, sdim, true⟩ qv k topK =
        (faissSearch idx qv (min (match k with | none => topK | some n => if n = 0 then topK else n) sdocs.length)).filterMap
          (fun p => (sdocs[p.2]?).map (fun d => (d, p.1))) := by
      intro kk
      simp [VectorStore.search]
    have hsearch := hs 0
    set kv := (match k with | none => topK | some n => if n = 0 then topK else n) with hkv
    set km := min kv sdocs.length with hkm
    set pairs := idx.vectors.enum.map (fun p => (sqDist qv p.2, p.1)) with hpairs
    have hperm := List.perm_insertionSort (fun a b : Int × Nat => a.1 ≤ b.1) pairs
    have hpairs_len : pairs.length = idx.vectors.length := by
      simp [hpairs]
    have hmem_pairs : ∀ p ∈ pairs, p.2 < sdocs.length ∧
        ∃ v, idx.vectors[p.2]? = some v ∧ p.1 = sqDist qv v := by
      intro p hp
      rw [hpairs] at hp
      obtain ⟨⟨i, v⟩, hiv, rfl⟩ := List.mem_map.1 hp
      have hv : idx.vectors[i]? = some v := List.mk_mem_enum_iff_getElem?.1 hiv
      have hlt : i < idx.vectors.length := (List.getElem?_eq_some.1 hv).1
      exact ⟨by omega, v, hv, rfl⟩
    have hmem_take : ∀ p ∈ faissSearch idx qv km, p ∈ pairs := by
      intro p hp
      have hsub : (List.take km (List.insertionSort (fun a b : Int × Nat => a.1 ≤ b.1) pairs)).Sublist
          (List.insertionSort (fun a b : Int × Nat => a.1 ≤ b.1) pairs) :=
        List.take_sublist km _
      exact hperm.mem_iff.1 (hsub.subset hp)
    refine ⟨?_, ?_, ?_, ?_⟩
    · rw [hsearch]
      rw [resLength sdocs _ (fun p hp => (hmem_pairs p (hmem_take p hp)).1)]
      have hfl : (faissSearch idx qv km).length = min km sdocs.length := by
        show ((List.insertionSort (fun a b : Int × Nat => a.1 ≤ b.1) pairs).take km).length = _
        rw [List.length_take, hperm.length_eq, hpairs_len, hlen]
      rw [hfl, hkm]
      omega
    · rw [hsearch]
      have hsorted : List.Pairwise (fun a b : Int × Nat => a.1 ≤ b.1) (faissSearch idx qv km) := by
        have hall := List.sorted_insertionSort (fun a b : Int × Nat => a.1 ≤ b.1) pairs
        exact List.Pairwise.sublist (List.take_sublist km _) hall
      apply List.pairwise_filterMap.2
      refine List.Pairwise.imp ?_ hsorted
      intro a b hab x hx y hy
      simp only [Option.mem_def, Option.map_eq_some'] at hx hy
      obtain ⟨da, _, hxa⟩ := hx
      obtain ⟨db, _, hyb⟩ := hy
      rw [← hxa, ← hyb]
      exact hab
    · rw [hsearch]
      intro p hp
      obtain ⟨a, ha, hfa⟩ := List.mem_filterMap.1 hp
      obtain ⟨_, v, hv, hdist⟩ := hmem_pairs a (hmem_take a ha)
      rw [Option.map_eq_some'] at hfa
      obtain ⟨d, hd, hpd⟩ := hfa
      refine ⟨a.2, v, hv, ?_, ?_⟩
      · rw [hd, ← hpd]
      · rw [← hpd]
        exact hdist
    · intro hnil
      rw [hsearch, hnil]
      simp [faissSearch]

/-- Witness for C4: an uninitialized store searches to `[]`, and on the
one-entry store `vsOne` a `search` with `k = 1` returns exactly one result. -/
theorem C4_witness :
    VectorStore.search VectorStore.empty [0] none 3 = [] ∧
    (VectorStore.search vsOne [0, 0] (some 1) 3).length = 1 := by
  constructor
  · exact C4_search_spec.1 VectorStore.empty [0] none 3 rfl
  · have h := (C4_search_spec.2 vsOne { d := 2, vectors := [[1, 2]] } [0, 0] (some 1) 3
      (by decide) (by decide) (by decide)).1
    exact h.trans (by decide)

/-- C9 counterexample: `clear()` only resets `index`, `documents` and
`is_initialized`; it leaves `dimension` at its old value.  On the one-entry
store `vsOne` (dimension fixed to 2), the dimension after `clear` is still
`some 2`, not unset. -/
theorem C9_counterexample :
    (VectorStore.clear vsOne).dimension = some 2 ∧
    ¬ ((VectorStore.clear vsOne).dimension = none) := by
  decide

/-- C9 amended: after `clear()` the store holds zero entries and the
underlying index and initialized flag are reset; the `dimension` attribute
retains its previous (stale) value.  Because the next `add` re-derives the
dimension whenever `index` is unset, the next non-empty add still fixes a
fresh dimension from the first batch it observes. -/
theorem C9_clear_spec :
    ∀ s : VectorStore,
      (VectorStore.clear s).documents = [] ∧
      (VectorStore.clear s).index = none ∧
      (VectorStore.clear s).isInit = false ∧
      (VectorStore.clear s).dimension = s.dimension ∧
      (∀ (docs : List Document) (embs : List (List Int)) (L : Nat),
        shape1 embs = some L → docs ≠ [] →
        (addDocuments (VectorStore.clear s) docs embs).1.dimension = some L ∧
        (addDocuments (VectorStore.clear s) docs embs).2 = none) := by
  intro s
  refine ⟨rfl, rfl, rfl, rfl, ?_⟩
  intro docs embs L hsh hdocs
  have hde : docs.isEmpty = false := by
    cases docs with
    | nil => exact absurd rfl hdocs
    | cons a t => rfl
  constructor
  · simp [addDocuments, hde, hsh, VectorStore.clear]
  · simp [addDocuments, hde, hsh, VectorStore.clear]

/-- Witness for C9: clearing `vsOne` empties it, and a following add of a
3-dimensional batch fixes the fresh dimension 3. -/
theorem C9_witness :
    (VectorStore.clear vsOne).documents = [] ∧
    (addDocuments (VectorStore.clear vsOne)
        [{ content := "x", source := "b.txt", chunkId := 0 }] [[7, 8, 9]]).1.dimension =
      some 3 := by
  refine ⟨(C9_clear_spec vsOne).1, ?_⟩
  exact ((C9_clear_spec vsOne).2.2.2.2
    [{ content := "x", source := "b.txt", chunkId := 0 }] [[7, 8, 9]] 3
    (by decide) (by decide)).1

/-! ## `SessionMemory` (src/app/agent/memory.py) -/

structure Msg where
  role : String
  content : String
  timestamp : Int
deriving DecidableEq

/-- The session store: `sessions` and `session_timestamps` as association
lists, together with the configured `max_conversation_history` and
`session_ttl`. -/
structure SessionMemory where
  sessions : List (String × List Msg)
  timestamps : List (String × Int)
  maxHistory : Nat
  ttl : Int
deriving DecidableEq

/-- Python dict assignment `d[k] = v` on an association list. -/
def setAssoc {α : Type} (l : List (String × α)) (k : String) (v : α) : List (String × α) :=
  match l with
  | [] => [(k, v)]
  | (a, b) :: t => if a = k then (k, v) :: t else (a, b) :: setAssoc t k v

/-- Embedding of `_cleanup_session`: delete the id from both dicts. -/
def cleanupSession (m : SessionMemory) (sid : String) : SessionMemory :=
  { m with sessions := m.sessions.filter (fun p => p.1 != sid),
           timestamps := m.timestamps.filter (fun p => p.1 != sid) }

/-- Embedding of `_is_session_valid(session_id)` at time `now`: absent ids are invalid;
an id whose `now - last_access` exceeds the TTL is evicted as a side effect
and reported invalid.  Returns the boolean and the possibly-evicted state. -/
def isSessionValid (m : SessionMemory) (sid : String) (now : Int) : Bool × SessionMemory :=
  match m.sessions.lookup sid with
  | none => (false, m)
  | some _ =>
    if now - (m.timestamps.lookup sid).getD 0 > m.ttl then (false, cleanupSession m sid)
    else (true, m)

/-- The check `session_exists` just delegates to `_is_session_valid`. -/
def sessionExists (m : SessionMemory) (sid : String) (now : Int) : Bool × SessionMemory :=
  isSessionValid m sid now

/-- Embedding of `create_session`, with the generated uuid passed in as `newId`. -/
def createSession (m : SessionMemory) (newId : String) (now : Int) : SessionMemory :=
  { m with sessions := setAssoc m.sessions newId [],
           timestamps := setAssoc m.timestamps newId now }

/-- Python `lst[-n:]`; note `lst[-0:]` is the whole list. -/
def pyLastN {α : Type} (n : Nat) (l : List α) : List α :=
  if n = 0 then l else l.drop (l.length - n)

/-- Embedding of `add_message`: silently drop on an invalid/expired session (keeping any
eviction the validity check performed); otherwise append the message, refresh
the timestamp, and if the session's total message count now exceeds
`max_history * 2`, keep the `system` messages plus the last
`max_history * 2` non-system messages. -/
def addMessage (m : SessionMemory) (sid role content : String) (now : Int) : SessionMemory :=
  let vm := isSessionValid m sid now
  if vm.1 = false then vm.2
  else
    let msgs := ((vm.2.sessions.lookup sid).getD []) ++
      [{ role := role, content := content, timestamp := now }]
    let m2 : SessionMemory := { vm.2 with sessions := setAssoc vm.2.sessions sid msgs,
                                          timestamps := setAssoc vm.2.timestamps sid now }
    if msgs.length > m2.maxHistory * 2 then
      let sys := msgs.filter (fun msg => msg.role == "system")
      let recent := pyLastN (m2.maxHistory * 2) (msgs.filter (fun msg => msg.role != "system"))
      { m2 with sessions := setAssoc m2.sessions sid (sys ++ recent) }
    else m2

/-- Embedding of `get_history`: empty on an invalid/expired session, else the stored
messages (the Python code copies them into fresh dicts). -/
def getHistory (m : SessionMemory) (sid : String) (now : Int) : List Msg × SessionMemory :=
  let vm := isSessionValid m sid now
  if vm.1 = false then ([], vm.2)
  else ((vm.2.sessions.lookup sid).getD [], vm.2)

theorem lookup_setAssoc_self {α : Type} (l : List (String × α)) (k : String) (v : α) :
    (setAssoc l k v).lookup k = some v := by
  induction l with
  | nil => simp [setAssoc, List.lookup]
  | cons p t ih =>
    cases p with
    | mk a b =>
      by_cases h : a = k
      · subst h
        simp [setAssoc, List.lookup]
      · have hk : (k == a) = false := beq_eq_false_iff_ne.2 (fun he => h he.symm)
        simp [setAssoc, h, List.lookup, hk, ih]

theorem lookup_setAssoc_ne {α : Type} (l : List (String × α)) (k k2 : String) (v : α)
    (h : k2 ≠ k) : (setAssoc l k v).lookup k2 = l.lookup k2 := by
  have hk2 : (k2 == k) = false := beq_eq_false_iff_ne.2 h
  induction l with
  | nil => simp [setAssoc, List.lookup, hk2]
  | cons p t ih =>
    cases p with
    | mk a b =>
      by_cases ha : a = k
      · subst ha
        simp [setAssoc, List.lookup, hk2]
      · simp [setAssoc, ha, List.lookup, ih]

/-- A validity check that succeeds does not change the store. -/
theorem isSessionValid_true_eq (m : SessionMemory) (sid : String) (now : Int)
    (h : (isSessionValid m sid now).1 = true) : isSessionValid m sid now = (true, m) := by
  unfold isSessionValid at h ⊢
  cases hl : m.sessions.lookup sid with
  | none => simp [hl] at h
  | some x =>
    by_cases hc : now - (m.timestamps.lookup sid).getD 0 > m.ttl
    · simp [hl, hc] at h
    · simp [hl, hc]

/-- Running `add_message` on a valid session that stays within the size bound:
append and refresh the timestamp, no trimming. -/
theorem addMessage_no_trim (m : SessionMemory) (sid role content : String) (now : Int)
    (h0 : List Msg)
    (hv : (isSessionValid m sid now).1 = true)
    (hl : m.sessions.lookup sid = some h0)
    (hlen : h0.length + 1 ≤ m.maxHistory * 2) :
    addMessage m sid role content now =
      { m with sessions := setAssoc m.sessions sid (h0 ++ [Msg.mk role content now]),
               timestamps := setAssoc m.timestamps sid now } := by
  unfold addMessage
  rw [isSessionValid_true_eq m sid now hv]
  simp [hl]
  intro h2
  exfalso
  omega

/-- Running `add_message` on a valid session that overflows the size bound: append,
refresh the timestamp, then keep the system messages plus the last
`max_history * 2` non-system messages. -/
theorem addMessage_trim (m : SessionMemory) (sid role content : String) (now : Int)
    (h0 : List Msg)
    (hv : (isSessionValid m sid now).1 = true)
    (hl : m.sessions.lookup sid = some h0)
    (hlen : (h0 ++ [Msg.mk role content now]).length > m.maxHistory * 2) :
    addMessage m sid role content now =
      { m with sessions := setAssoc
                 (setAssoc m.sessions sid (h0 ++ [Msg.mk role content now])) sid
                 (((h0 ++ [Msg.mk role content now]).filter
                     (fun msg => msg.role == "system")) ++
                  pyLastN (m.maxHistory * 2)
                    ((h0 ++ [Msg.mk role content now]).filter
                      (fun msg => msg.role != "system"))),
               timestamps := setAssoc m.timestamps sid now } := by
  unfold addMessage
  rw [isSessionValid_true_eq m sid now hv]
  have hlen2 : m.maxHistory * 2 < h0.length + 1 := by
    simp only [List.length_append, List.length_singleton] at hlen
    omega
  simp [hl, hlen2]

/-- The store seeded for the trimming scenario: `max_history = 10`,
`TTL = 3600`, one session `"s"` holding one system message. -/
def memC5 : SessionMemory :=
  addMessage (createSession { sessions := [], timestamps := [], maxHistory := 10, ttl := 3600 }
    "s" 0) "s" "system" "prompt" 0

/-- Append `n` user messages with contents `"0"`, …, `"n-1"` (all at time 0). -/
def appendUserMsgs (m : SessionMemory) (sid : String) : Nat → SessionMemory
  | 0 => m
  | n + 1 => addMessage (appendUserMsgs m sid n) sid "user" (toString n) 0

/-- C5: (general part) on a valid session, once the appended history's
non-system message count exceeds `max_history * 2` (with `max_history ≥ 1`),
`add_message` stores exactly the system messages followed by the most recent
`max_history * 2` non-system messages, each subsequence in original order;
(instance) with `max_history = 10`, appending 25 user messages to a session
holding one system message leaves that system message plus the 20 most
recent user messages. -/
theorem C5_trimming :
    (∀ (m : SessionMemory) (sid role content : String) (now : Int) (h0 : List Msg),
      (isSessionValid m sid now).1 = true →
      m.sessions.lookup sid = some h0 →
      1 ≤ m.maxHistory →
      ((h0 ++ [Msg.mk role content now]).filter
        (fun msg => msg.role != "system")).length > m.maxHistory * 2 →
      (addMessage m sid role content now).sessions.lookup sid =
        some (((h0 ++ [Msg.mk role content now]).filter
            (fun msg => msg.role == "system")) ++
          (((h0 ++ [Msg.mk role content now]).filter
            (fun msg => msg.role != "system")).drop
            (((h0 ++ [Msg.mk role content now]).filter
              (fun msg => msg.role != "system")).length - m.maxHistory * 2)))) ∧
    (appendUserMsgs memC5 "s" 25).sessions.lookup "s" =
      some (Msg.mk "system" "prompt" 0 ::
        ((List.range 25).drop 5).map (fun i => Msg.mk "user" (toString i) 0)) := by
  constructor
  · intro m sid role content now h0 hv hl hmax hcnt
    have hfle := List.length_filter_le (fun msg => msg.role != "system")
      (h0 ++ [Msg.mk role content now])
    have hlen : (h0 ++ [Msg.mk role content now]).length > m.maxHistory * 2 := by omega
    rw [addMessage_trim m sid role content now h0 hv hl hlen]
    have hn0 : ¬ (m.maxHistory * 2 = 0) := by omega
    simp only [lookup_setAssoc_self, pyLastN, if_neg hn0]
  · decide

/-- Witness for C5: with `max_history = 1`, a session holding 2 user messages
receives a third; the non-system count 3 exceeds 2, so the stored history
becomes the last 2 user messages. -/
theorem C5_witness :
    (addMessage { sessions := [("s", [Msg.mk "user" "m1" 0, Msg.mk "user" "m2" 0])],
                  timestamps := [("s", 0)], maxHistory := 1, ttl := 3600 }
      "s" "user" "m3" 0).sessions.lookup "s" =
      some [Msg.mk "user" "m2" 0, Msg.mk "user" "m3" 0] := by
  have h := C5_trimming.1
    { sessions := [("s", [Msg.mk "user" "m1" 0, Msg.mk "user" "m2" 0])],
      timestamps := [("s", 0)], maxHistory := 1, ttl := 3600 }
    "s" "user" "m3" 0 [Msg.mk "user" "m1" 0, Msg.mk "user" "m2" 0]
    (by decide) (by decide) (by decide) (by decide)
  exact h.trans (by decide)

/-! ## `AIAgent.process_query` session resolution (src/app/agent/ai_agent.py) -/

/-- The text of `AIAgent.SYSTEM_PROMPT`. -/
def SYSTEM_PROMPT : String :=
  "You are a helpful AI assistant with access to company knowledge base. \n    \nYour behavior:\n- For questions about company policies, products, procedures, or specific factual information, use the search_documents tool to find relevant information before answering.\n- For general questions, mathematical calculations, or common knowledge, you can answer directly without searching.\n- Always provide clear, concise, and accurate answers.\n- If you use information from documents, cite the sources.\n- If you cannot find relevant information in the documents, say so clearly.\n\nRemember: Use the search tool when the question requires company-specific information."

/-- The `else` arm of the session check in `process_query`: create a fresh
session (with the generated uuid `freshId`) and add the system message. -/
def startFreshSession (m : SessionMemory) (freshId : String) (now : Int) :
    String × SessionMemory :=
  (freshId, addMessage (createSession m freshId now) freshId "system" SYSTEM_PROMPT now)

/-- The session resolution step of `process_query`:
`if session_id and session_memory.session_exists(session_id)` reuse it, else
create a fresh session and seed the system prompt.  A falsy (`None` or empty)
`session_id` short-circuits without calling `session_exists`. -/
def resolveSession (m : SessionMemory) (sid? : Option String) (now : Int) (freshId : String) :
    String × SessionMemory :=
  match sid? with
  | some sid =>
    if sid != "" then
      let em := sessionExists m sid now
      if em.1 then (sid, em.2)
      else startFreshSession em.2 freshId now
    else startFreshSession m freshId now
  | none => startFreshSession m freshId now

theorem lookup_filter_self {α : Type} (l : List (String × α)) (k : String) :
    (l.filter (fun p => p.1 != k)).lookup k = none := by
  induction l with
  | nil => rfl
  | cons p t ih =>
    cases p with
    | mk a b =>
      by_cases h : a = k
      · subst h
        simp [List.filter_cons, ih]
      · have hne : (a != k) = true := bne_iff_ne.2 h
        have hka : (k == a) = false := beq_eq_false_iff_ne.2 (fun he => h he.symm)
        simp [List.filter_cons, hne, List.lookup, hka, ih]

/-- A fresh session seeded by `startFreshSession` holds exactly the system
message (for any non-negative TTL, whatever `max_history` is). -/
theorem startFresh_lookup (m : SessionMemory) (freshId : String) (now : Int)
    (h : 0 ≤ m.ttl) :
    (startFreshSession m freshId now).1 = freshId ∧
    (startFreshSession m freshId now).2.sessions.lookup freshId =
      some [Msg.mk "system" SYSTEM_PROMPT now] := by
  refine ⟨rfl, ?_⟩
  have hl1 : (createSession m freshId now).sessions.lookup freshId = some [] := by
    simp [createSession, lookup_setAssoc_self]
  have hl2 : (createSession m freshId now).timestamps.lookup freshId = some now := by
    simp [createSession, lookup_setAssoc_self]
  have httl : (createSession m freshId now).ttl = m.ttl := rfl
  have hv : (isSessionValid (createSession m freshId now) freshId now).1 = true := by
    unfold isSessionValid
    rw [hl1, hl2]
    simp only [Option.getD_some]
    rw [httl]
    rw [if_neg (by omega)]
  show (addMessage (createSession m freshId now) freshId "system"
    SYSTEM_PROMPT now).sessions.lookup freshId = _
  by_cases hmh : (([] : List Msg) ++ [Msg.mk "system" SYSTEM_PROMPT now]).length >
      (createSession m freshId now).maxHistory * 2
  · rw [addMessage_trim (createSession m freshId now) freshId "system" SYSTEM_PROMPT now []
      hv hl1 hmh]
    simp [lookup_setAssoc_self, pyLastN]
  · have hle : ([] : List Msg).length + 1 ≤ (createSession m freshId now).maxHistory * 2 := by
      simp only [List.nil_append, List.length_singleton] at hmh
      simp only [List.length_nil]
      omega
    rw [addMessage_no_trim (createSession m freshId now) freshId "system" SYSTEM_PROMPT now []
      hv hl1 hle]
    simp [lookup_setAssoc_self]

/-- C6: (first) `session_exists` is true iff the id is present and
`now - last_access ≤ TTL`; (second) when the check finds a present-but-expired
session it reports false and evicts it from both maps as a side effect;
(third) a query then presented with that expired id resolves to a brand-new
session under the fresh id, holding exactly a fresh system message. -/
theorem C6_expiry_eviction :
    (∀ (m : SessionMemory) (sid : String) (now : Int),
      (sessionExists m sid now).1 = true ↔
        ((m.sessions.lookup sid).isSome ∧
          now - (m.timestamps.lookup sid).getD 0 ≤ m.ttl)) ∧
    (∀ (m : SessionMemory) (sid : String) (now : Int) (h0 : List Msg),
      m.sessions.lookup sid = some h0 →
      now - (m.timestamps.lookup sid).getD 0 > m.ttl →
      (sessionExists m sid now).1 = false ∧
      (sessionExists m sid now).2.sessions.lookup sid = none ∧
      (sessionExists m sid now).2.timestamps.lookup sid = none) ∧
    (∀ (m : SessionMemory) (sid freshId : String) (now : Int) (h0 : List Msg),
      m.sessions.lookup sid = some h0 →
      now - (m.timestamps.lookup sid).getD 0 > m.ttl →
      0 ≤ m.ttl →
      (resolveSession m (some sid) now freshId).1 = freshId ∧
      (resolveSession m (some sid) now freshId).2.sessions.lookup freshId =
        some [Msg.mk "system" SYSTEM_PROMPT now]) := by
  refine ⟨?_, ?_, ?_⟩
  · intro m sid now
    unfold sessionExists isSessionValid
    cases hl : m.sessions.lookup sid with
    | none => simp [hl]
    | some x =>
      by_cases hc : now - (m.timestamps.lookup sid).getD 0 > m.ttl
      · simp [hc]
        omega
      · simp [hc]
        omega
  · intro m sid now h0 hl hexp
    unfold sessionExists isSessionValid
    simp [hl, hexp, cleanupSession, lookup_filter_self]
  · intro m sid freshId now h0 hl hexp httl
    unfold resolveSession
    by_cases hsid : sid = ""
    · subst hsid
      simp only [bne_self_eq_false, Bool.false_eq_true, if_false]
      exact startFresh_lookup m freshId now httl
    · have hbs : (sid != "") = true := bne_iff_ne.2 hsid
      have hex : sessionExists m sid now = (false, cleanupSession m sid) := by
        unfold sessionExists isSessionValid
        simp [hl, hexp]
      simp only [hbs, if_true, hex]
      exact startFresh_lookup (cleanupSession m sid) freshId now httl

/-- The expiry scenario store: one session `"s"` last active at time 0,
`TTL = 1`. -/
def memC6 : SessionMemory :=
  { sessions := [("s", [Msg.mk "system" "p" 0])], timestamps := [("s", 0)],
    maxHistory := 10, ttl := 1 }

/-- Witness for C6: at `now = 2` the idle-for-2s session with `TTL = 1` reports
not-exists, is evicted from both maps, and a query presented with its id gets
the fresh id `"t"` seeded with exactly a fresh system message; at `now = 0`
the same session still exists. -/
theorem C6_witness :
    (sessionExists memC6 "s" 0).1 = true ∧
    (sessionExists memC6 "s" 2).1 = false ∧
    (sessionExists memC6 "s" 2).2.sessions.lookup "s" = none ∧
    (sessionExists memC6 "s" 2).2.timestamps.lookup "s" = none ∧
    (resolveSession memC6 (some "s") 2 "t").1 = "t" ∧
    (resolveSession memC6 (some "s") 2 "t").2.sessions.lookup "t" =
      some [Msg.mk "system" SYSTEM_PROMPT 2] := by
  have h1 := (C6_expiry_eviction.1 memC6 "s" 0).2 ⟨by decide, by decide⟩
  have h2 := C6_expiry_eviction.2.1 memC6 "s" 2 [Msg.mk "system" "p" 0] (by decide) (by decide)
  have h3 := C6_expiry_eviction.2.2 memC6 "s" "t" 2 [Msg.mk "system" "p" 0]
    (by decide) (by decide) (by decide)
  exact ⟨h1, h2.1, h2.2.1, h2.2.2, h3.1, h3.2⟩

/-! ## `AIAgent.process_query` orchestration (src/app/agent/ai_agent.py) -/

/-- One tool-call request carried by a completion reply (`name`, parsed
`arguments`). -/
structure ToolCall where
  id : String
  name : String
  argQuery : Option String
  argNumResults : Option Nat
deriving DecidableEq

/-- A completion reply: content plus zero or more tool-call requests. -/
structure ChatResponse where
  content : String
  tool_calls : List ToolCall
deriving DecidableEq

/-- One retrieval hit as returned by `DocumentRetriever.retrieve`. -/
structure RetrievedDoc where
  content : String
  source : String
deriving DecidableEq

/-- A message in the orchestrator's working list. -/
inductive WorkMsg where
  | plain (role content : String)
  | assistantToolCalls (tcs : List ToolCall)
  | toolResult (tcId name content : String)
deriving DecidableEq

/-- The result dictionary of `process_query`. -/
structure QueryResult where
  answer : String
  sources : List String
  session_id : String
deriving DecidableEq

/-- Embedding of `AIAgent._search_documents`: number the hits from 1 and label each with
its source, or report that nothing was found. -/
def formatSearchResults (results : List RetrievedDoc) : String :=
  if results.isEmpty then "No relevant documents found."
  else String.intercalate "\n" (results.enum.map (fun p =>
    "[Document " ++ toString (p.1 + 1) ++ " - " ++ p.2.source ++ "]\n" ++ p.2.content ++ "\n"))

/-- The body of the `for tool_call in response_message.tool_calls` loop:
a `search_documents` call runs the retrieval twice (once for the formatted
block, once for the source extraction), appends the tool-result message to
the working list, and OVERWRITES `sources` with this call's deduplicated
source list; any other tool name leaves the accumulator untouched.  The
`Nat` component counts retrieval invocations. -/
def toolStep (retrieve : String → Nat → List RetrievedDoc) (query : String)
    (acc : List WorkMsg × List String × Nat) (tc : ToolCall) :
    List WorkMsg × List String × Nat :=
  if tc.name = "search_documents" then
    let q := tc.argQuery.getD query
    let n := tc.argNumResults.getD 3
    let searchResults := formatSearchResults (retrieve q n)
    let retrievedDocs := retrieve q n
    (acc.1 ++ [WorkMsg.toolResult tc.id tc.name searchResults],
     (retrievedDocs.map (fun doc => doc.source)).eraseDups,
     acc.2.2 + 2)
  else acc

/-- The whole tool round: fold the loop body over the requested calls,
starting from the working history and `sources = []`. -/
def toolRound (retrieve : String → Nat → List RetrievedDoc) (query : String)
    (msgs0 : List WorkMsg) (tcs : List ToolCall) : List WorkMsg × List String × Nat :=
  tcs.foldl (toolStep retrieve query) (msgs0, [], 0)

/-- Session resolution, user-message append and history fetch: the part of
`process_query` before the first completion call.  Returns the session id,
the store, and the working message list. -/
def contextOf (m : SessionMemory) (sid? : Option String) (now : Int) (freshId : String)
    (query : String) : String × SessionMemory × List WorkMsg :=
  let rs := resolveSession m sid? now freshId
  let m2 := addMessage rs.2 rs.1 "user" query now
  let gh := getHistory m2 rs.1 now
  (rs.1, gh.2, gh.1.map (fun msg => WorkMsg.plain msg.role msg.content))

/-- Embedding of `AIAgent.process_query`.  `complete msgs withTools` stands for the external
completion capability (`withTools` says whether the tool schema was offered);
`retrieve` stands for `document_retriever.retrieve`; `freshId` for the uuid
generated when a new session is created.  Returns the result dictionary, the
final session store, the `withTools` flag of every completion call made (in
order), and the number of retrieval invocations. -/
def processQuery (complete : List WorkMsg → Bool → ChatResponse)
    (retrieve : String → Nat → List RetrievedDoc)
    (m : SessionMemory) (sid? : Option String) (now : Int) (freshId : String)
    (query : String) : QueryResult × SessionMemory × List Bool × Nat :=
  let c := contextOf m sid? now freshId query
  let resp := complete c.2.2 true
  if resp.tool_calls.isEmpty then
    ({ answer := resp.content, sources := [], session_id := c.1 },
     addMessage c.2.1 c.1 "assistant" resp.content now, [true], 0)
  else
    let tr := toolRound retrieve query (c.2.2 ++ [WorkMsg.assistantToolCalls resp.tool_calls])
      resp.tool_calls
    let resp2 := complete tr.1 false
    ({ answer := resp2.content, sources := tr.2.1, session_id := c.1 },
     addMessage c.2.1 c.1 "assistant" resp2.content now, [true, false], tr.2.2)

/-- C7: the orchestrator makes one completion call offering the tool schema
and, only when that reply requests tool calls, exactly one more without the
schema — never a third call and never a second round with tools; and when the
first reply carries no tool-call request, its content is the final answer,
`sources` is empty, and no retrieval runs. -/
theorem C7_single_tool_round :
    ∀ (complete : List WorkMsg → Bool → ChatResponse)
      (retrieve : String → Nat → List RetrievedDoc)
      (m : SessionMemory) (sid? : Option String) (now : Int) (freshId query : String),
      ((processQuery complete retrieve m sid? now freshId query).2.2.1 = [true] ∨
       (processQuery complete retrieve m sid? now freshId query).2.2.1 = [true, false]) ∧
      ((complete (contextOf m sid? now freshId query).2.2 true).tool_calls = [] →
        (processQuery complete retrieve m sid? now freshId query).1.answer =
          (complete (contextOf m sid? now freshId query).2.2 true).content ∧
        (processQuery complete retrieve m sid? now freshId query).1.sources = [] ∧
        (processQuery complete retrieve m sid? now freshId query).2.2.1 = [true] ∧
        (processQuery complete retrieve m sid? now freshId query).2.2.2 = 0) := by
  intro complete retrieve m sid? now freshId query
  constructor
  · by_cases h : (complete (contextOf m sid? now freshId query).2.2 true).tool_calls.isEmpty
    · left
      simp [processQuery, h]
    · right
      simp [processQuery, h]
  · intro h0
    have h : (complete (contextOf m sid? now freshId query).2.2 true).tool_calls.isEmpty = true := by
      rw [h0]
      rfl
    refine ⟨?_, ?_, ?_, ?_⟩ <;> simp [processQuery, h]

/-- A completer that always answers directly, and an empty retriever. -/
def c7complete : List WorkMsg → Bool → ChatResponse :=
  fun _ _ => { content := "direct", tool_calls := [] }

def c7retrieve : String → Nat → List RetrievedDoc := fun _ _ => []

/-- Witness for C7: with a completer that never requests tools, the query is
answered by its content, with no sources, one completion call, no retrieval. -/
theorem C7_witness :
    (processQuery c7complete c7retrieve memC6 none 0 "t" "hi").1.answer = "direct" ∧
    (processQuery c7complete c7retrieve memC6 none 0 "t" "hi").1.sources = [] ∧
    (processQuery c7complete c7retrieve memC6 none 0 "t" "hi").2.2.1 = [true] ∧
    (processQuery c7complete c7retrieve memC6 none 0 "t" "hi").2.2.2 = 0 := by
  have h := (C7_single_tool_round c7complete c7retrieve memC6 none 0 "t" "hi").2 rfl
  exact ⟨h.1, h.2.1, h.2.2.1, h.2.2.2⟩

/-- Tool calls with any other name leave the loop accumulator untouched. -/
theorem toolFold_no_search (retrieve : String → Nat → List RetrievedDoc) (query : String)
    (l : List ToolCall) (h : ∀ tc ∈ l, tc.name ≠ "search_documents") :
    ∀ acc, l.foldl (toolStep retrieve query) acc = acc := by
  induction l with
  | nil => intro acc; rfl
  | cons a t ih =>
    intro acc
    rw [List.foldl_cons]
    have ha : toolStep retrieve query acc a = acc := by
      simp [toolStep, h a (List.mem_cons_self a t)]
    rw [ha]
    exact ih (fun tc htc => h tc (List.mem_cons_of_mem a htc)) acc

/-- C1 amended: because the loop body overwrites `sources` on every
`search_documents` call instead of accumulating a union, the returned
`sources` equals the deduplicated source list of the LAST `search_documents`
call of the round only — the sources of every earlier call are discarded
(for a reply with a single search call the two coincide, so the claim holds
only in that special case). -/
theorem C1_sources_from_last_search :
    ∀ (complete : List WorkMsg → Bool → ChatResponse)
      (retrieve : String → Nat → List RetrievedDoc)
      (m : SessionMemory) (sid? : Option String) (now : Int) (freshId query : String)
      (pre post : List ToolCall) (tc : ToolCall),
      (complete (contextOf m sid? now freshId query).2.2 true).tool_calls =
        pre ++ tc :: post →
      tc.name = "search_documents" →
      (∀ tc2 ∈ post, tc2.name ≠ "search_documents") →
      (processQuery complete retrieve m sid? now freshId query).1.sources =
        ((retrieve (tc.argQuery.getD query) (tc.argNumResults.getD 3)).map
          (fun doc => doc.source)).eraseDups := by
  intro complete retrieve m sid? now freshId query pre post tc hcalls htc hpost
  have hne : (complete (contextOf m sid? now freshId query).2.2 true).tool_calls.isEmpty
      = false := by
    rw [hcalls]
    cases pre with
    | nil => rfl
    | cons a t => rfl
  simp only [processQuery, hne, Bool.false_eq_true, if_false]
  unfold toolRound
  rw [hcalls, List.foldl_append, List.foldl_cons]
  rw [toolFold_no_search retrieve query post hpost]
  simp [toolStep, htc]

/-- A completer requesting two `search_documents` calls (queries `"qa"` and
`"qb"`), then answering; and a retriever returning source `s1` for `"qa"` and
`s2` for `"qb"`. -/
def cexComplete : List WorkMsg → Bool → ChatResponse := fun _ wt =>
  if wt then { content := "",
               tool_calls := [ToolCall.mk "1" "search_documents" (some "qa") none,
                              ToolCall.mk "2" "search_documents" (some "qb") none] }
  else { content := "done", tool_calls := [] }

def cexRetrieve : String → Nat → List RetrievedDoc := fun q _ =>
  if q = "qa" then [RetrievedDoc.mk "ca" "s1"] else [RetrievedDoc.mk "cb" "s2"]

def cexRun : QueryResult × SessionMemory × List Bool × Nat :=
  processQuery cexComplete cexRetrieve
    { sessions := [], timestamps := [], maxHistory := 10, ttl := 3600 } none 0 "f" "hello"

/-- C1 counterexample: with two `search_documents` calls in one round whose
retrievals cite `s1` and `s2` respectively, the union of distinct sources
across all calls is `{s1, s2}`, but the orchestrator returns only `["s2"]` —
the first call's source `s1` is lost, refuting the claim that `sources`
equals the union over ALL tool calls of the round. -/
theorem C1_counterexample :
    cexRun.1.sources = ["s2"] ∧
    ((cexRetrieve "qa" 3).map (fun d => d.source) ++
      (cexRetrieve "qb" 3).map (fun d => d.source)).eraseDups = ["s1", "s2"] ∧
    ¬ ("s1" ∈ cexRun.1.sources) := by
  decide

/-- Witness for C1: applying the amended statement to the two-call scenario
(`pre` = the `"qa"` call, `tc` = the `"qb"` call, `post` = `[]`) yields
exactly the last call's deduplicated sources. -/
theorem C1_witness :
    cexRun.1.sources =
      ((cexRetrieve "qb" 3).map (fun doc => doc.source)).eraseDups := by
  exact C1_sources_from_last_search cexComplete cexRetrieve
    { sessions := [], timestamps := [], maxHistory := 10, ttl := 3600 } none 0 "f" "hello"
    [ToolCall.mk "1" "search_documents" (some "qa") none] []
    (ToolCall.mk "2" "search_documents" (some "qb") none)
    (by decide) (by decide) (by decide)

/-- Whatever the completion replies, the store returned by `process_query` is
obtained from the store produced by the context step by persisting exactly one
`assistant` message carrying the final answer — the working-history appends
(tool-call and tool-result messages) never reach the store. -/
theorem processQuery_store (complete : List WorkMsg → Bool → ChatResponse)
    (retrieve : String → Nat → List RetrievedDoc)
    (m : SessionMemory) (sid? : Option String) (now : Int) (freshId query : String) :
    (processQuery complete retrieve m sid? now freshId query).2.1 =
      addMessage (contextOf m sid? now freshId query).2.1
        (contextOf m sid? now freshId query).1 "assistant"
        (processQuery complete retrieve m sid? now freshId query).1.answer now := by
  by_cases h : (complete (contextOf m sid? now freshId query).2.2 true).tool_calls.isEmpty
  · simp [processQuery, h]
  · simp [processQuery, h]

/-- C8: tool-round messages are never persisted — after `process_query` on a
valid session with room to spare, the stored history has gained exactly the
user query and the final answer, whatever tool calls (and tool-result
messages) the round produced. -/
theorem C8_only_final_answer_persisted :
    ∀ (complete : List WorkMsg → Bool → ChatResponse)
      (retrieve : String → Nat → List RetrievedDoc)
      (m : SessionMemory) (sid? : Option String) (now : Int) (freshId query : String)
      (h0 : List Msg),
      (isSessionValid (resolveSession m sid? now freshId).2
        (resolveSession m sid? now freshId).1 now).1 = true →
      (resolveSession m sid? now freshId).2.sessions.lookup
        (resolveSession m sid? now freshId).1 = some h0 →
      0 ≤ (resolveSession m sid? now freshId).2.ttl →
      h0.length + 2 ≤ (resolveSession m sid? now freshId).2.maxHistory * 2 →
      (processQuery complete retrieve m sid? now freshId query).2.1.sessions.lookup
        (resolveSession m sid? now freshId).1 =
        some (h0 ++ [Msg.mk "user" query now,
          Msg.mk "assistant"
            (processQuery complete retrieve m sid? now freshId query).1.answer now]) := by
  intro complete retrieve m sid? now freshId query h0 hv hl httl hlen
  have hm2 := addMessage_no_trim (resolveSession m sid? now freshId).2
    (resolveSession m sid? now freshId).1 "user" query now h0 hv hl (by omega)
  have hl2 : (addMessage (resolveSession m sid? now freshId).2
      (resolveSession m sid? now freshId).1 "user" query now).sessions.lookup
      (resolveSession m sid? now freshId).1 = some (h0 ++ [Msg.mk "user" query now]) := by
    rw [hm2]
    exact lookup_setAssoc_self _ _ _
  have ht2 : (addMessage (resolveSession m sid? now freshId).2
      (resolveSession m sid? now freshId).1 "user" query now).timestamps.lookup
      (resolveSession m sid? now freshId).1 = some now := by
    rw [hm2]
    exact lookup_setAssoc_self _ _ _
  have hmax2 : (addMessage (resolveSession m sid? now freshId).2
      (resolveSession m sid? now freshId).1 "user" query now).maxHistory =
      (resolveSession m sid? now freshId).2.maxHistory := by
    rw [hm2]
  have httl2 : (addMessage (resolveSession m sid? now freshId).2
      (resolveSession m sid? now freshId).1 "user" query now).ttl =
      (resolveSession m sid? now freshId).2.ttl := by
    rw [hm2]
  have hv2 : (isSessionValid (addMessage (resolveSession m sid? now freshId).2
      (resolveSession m sid? now freshId).1 "user" query now)
      (resolveSession m sid? now freshId).1 now).1 = true := by
    unfold isSessionValid
    rw [hl2, ht2]
    simp only [Option.getD_some]
    rw [if_neg (by rw [httl2]; omega)]
  have hgh : (getHistory (addMessage (resolveSession m sid? now freshId).2
      (resolveSession m sid? now freshId).1 "user" query now)
      (resolveSession m sid? now freshId).1 now).2 =
      addMessage (resolveSession m sid? now freshId).2
        (resolveSession m sid? now freshId).1 "user" query now := by
    unfold getHistory
    rw [isSessionValid_true_eq _ _ _ hv2]
    rfl
  have hc1 : (contextOf m sid? now freshId query).1 =
      (resolveSession m sid? now freshId).1 := rfl
  have hctx : (contextOf m sid? now freshId query).2.1 =
      addMessage (resolveSession m sid? now freshId).2
        (resolveSession m sid? now freshId).1 "user" query now := hgh
  rw [processQuery_store, hc1, hctx]
  have hlen2 : (h0 ++ [Msg.mk "user" query now]).length + 1 ≤
      (addMessage (resolveSession m sid? now freshId).2
        (resolveSession m sid? now freshId).1 "user" query now).maxHistory * 2 := by
    simp only [List.length_append, List.length_singleton]
    rw [hmax2]
    omega
  rw [addMessage_no_trim _ _ "assistant" _ now (h0 ++ [Msg.mk "user" query now]) hv2 hl2 hlen2]
  simp [lookup_setAssoc_self]

/-- An existing valid session `"s"` holding one system message. -/
def memC8 : SessionMemory :=
  { sessions := [("s", [Msg.mk "system" "p" 0])], timestamps := [("s", 0)],
    maxHistory := 10, ttl := 3600 }

/-- Witness for C8: even though the completer requests two tool calls (so the
working history gains an assistant tool-call message and two tool results),
the stored session gains exactly the user query and the final answer. -/
theorem C8_witness :
    (processQuery cexComplete cexRetrieve memC8 (some "s") 0 "t" "q").2.1.sessions.lookup "s" =
      some [Msg.mk "system" "p" 0, Msg.mk "user" "q" 0, Msg.mk "assistant" "done" 0] := by
  have h := C8_only_final_answer_persisted cexComplete cexRetrieve memC8 (some "s") 0 "t" "q"
    [Msg.mk "system" "p" 0] (by decide) (by decide) (by decide) (by decide)
  exact h.trans (by decide)
